import Mathlib

/-!
Shallow embedding of the `rody` container-format library
(`src/lib.rs`, `src/error.rs`) and proofs about its specification.

Modelling conventions:
* Rust `u32` values are `Nat`s; every place the source performs `u32`
  arithmetic or an `as u32` cast, the model applies `% 2^32` explicitly.
* `usize` values (block lengths, shelf counts, the running offsets in
  `press`) are modelled as unbounded `Nat`: overflowing a 64-bit `usize`
  would require more than `2^64` bytes of input, which is not reachable
  in the scenarios any claim is about.
* Byte buffers are `List Nat` (each element one byte).  The source's
  zero-copy readers reinterpret the first `size_of::<T>()` bytes of a
  buffer through an unchecked raw-pointer cast, with **no length check**:
  on a buffer shorter than the record the machine reads whatever bytes
  lie beyond the buffer (undefined behaviour).  The model makes those
  out-of-bounds bytes explicit as a parameter `oob : Nat → Nat` giving
  the byte the machine would read at each out-of-range index.
* The target is little-endian (the layout `write_out` emits via
  `to_le_bytes`), so in-place reinterpretation of a `repr(C, packed)`
  record agrees with little-endian field decoding.
* The `Write` sink is modelled by the list of bytes emitted; sink I/O
  errors (`Error::IoError`) are outside the pure model.
-/

namespace Rody

/-- Error taxonomy, from `src/error.rs`.  `IoError` carries no payload in
the model (the wrapped `io::Error` is opaque). -/
inductive Error where
  | BadMagic : Error
  | InvalidVersion : Error
  | IoError : Error
  | Internal : String → Error
  | TooLarge : Nat → Error
deriving Repr, DecidableEq

/-- Serialize a `u32` value to its four little-endian bytes, as
`u32::to_le_bytes` does. -/
def u32ToLE (n : Nat) : List Nat :=
  [n % 256, n / 256 % 256, n / 65536 % 256, n / 16777216 % 256]

/-- The byte the machine reads at index `i`: the buffer's byte when `i` is
in range, otherwise the (undefined-behaviour) out-of-bounds byte `oob i`. -/
def byteAt (buf : List Nat) (oob : Nat → Nat) (i : Nat) : Nat :=
  buf.getD i (oob i)

/-- Little-endian `u32` read of the four bytes at offset `off`, as the
raw-pointer reinterpretation of a packed struct performs on a
little-endian machine. -/
def readU32LE (buf : List Nat) (oob : Nat → Nat) (off : Nat) : Nat :=
  byteAt buf oob off + 256 * byteAt buf oob (off + 1) +
    65536 * byteAt buf oob (off + 2) + 16777216 * byteAt buf oob (off + 3)

/-- `Header` record: `magic`, `version`, `blocklist_size`, three `u32`
fields in `repr(C, packed)` order (12 bytes on the wire). -/
structure Header where
  magic : Nat
  version : Nat
  blocklist_size : Nat
deriving Repr, DecidableEq

/-- `Header::FILE_MAGIC`. -/
def FILE_MAGIC : Nat := 0x55AA33BB

/-- `Header::new`: `blocklist_size` arrives as `usize` and is cast
`as u32` (truncation). -/
def Header.new (blocklist_size : Nat) : Header :=
  { magic := FILE_MAGIC, version := 1, blocklist_size := blocklist_size % 2 ^ 32 }

/-- `Header::write_out`: the three fields in declared order, each as
`to_le_bytes`. -/
def Header.write_out (h : Header) : List Nat :=
  u32ToLE h.magic ++ u32ToLE h.version ++ u32ToLE h.blocklist_size

/-- `Header::validate`: `BadMagic` before `InvalidVersion`, else a view of
the same header. -/
def Header.validate (h : Header) : Except Error Header :=
  if h.magic ≠ FILE_MAGIC then Except.error Error.BadMagic
  else if h.version ≠ 1 then Except.error Error.InvalidVersion
  else Except.ok h

/-- The `Header` view produced by `Header::from_buf`'s raw-pointer cast of
`buf`: the first 12 bytes reinterpreted in place, whatever `buf.length`
is (no length check exists in the source). -/
def Header.reinterpret (buf : List Nat) (oob : Nat → Nat) : Header :=
  { magic := readU32LE buf oob 0
    version := readU32LE buf oob 4
    blocklist_size := readU32LE buf oob 8 }

/-- `Header::from_buf`: the `ok_or_else("Pointer conversion failed")`
branch fires only for a null pointer, which a slice reference never is,
so the function always reinterprets and then validates. -/
def Header.from_buf (buf : List Nat) (oob : Nat → Nat) : Except Error Header :=
  (Header.reinterpret buf oob).validate

/-- `RunDesc` record: `block_size`, `count`, `offset`, three `u32` fields
in `repr(C, packed)` order (12 bytes on the wire). -/
structure RunDesc where
  block_size : Nat
  count : Nat
  offset : Nat
deriving Repr, DecidableEq

/-- The overrun message built by `RunDesc::validate`'s `format!`. -/
def overrunMsg (count size buffer_length : Nat) : String :=
  "Blocklist (" ++ toString count ++ " blocks at " ++ toString size ++
    " bytes each) would overrun buffer (" ++ toString buffer_length ++ " bytes)"

/-- `RunDesc::validate`: `block_size * count` and `offset + total_size`
are `u32` operations (wrapping, modelled `% 2^32`), and `buffer_length`
is truncated `as u32`.  The error is `Error::Internal` via
`From<String>`. -/
def RunDesc.validate (r : RunDesc) (buffer_length : Nat) : Except Error RunDesc :=
  let total_size := r.block_size * r.count % 2 ^ 32
  let buffer_length32 := buffer_length % 2 ^ 32
  if (r.offset + total_size) % 2 ^ 32 > buffer_length32 then
    Except.error (Error.Internal (overrunMsg r.count r.block_size buffer_length32))
  else
    Except.ok r

/-- `RunDesc::write_out`: the three fields in declared order, each as
`to_le_bytes`. -/
def RunDesc.write_out (r : RunDesc) : List Nat :=
  u32ToLE r.block_size ++ u32ToLE r.count ++ u32ToLE r.offset

/-- The `RunDesc` view produced by `RunDesc::from_buf`'s raw-pointer cast:
the first 12 bytes of the buffer, reinterpreted in place. -/
def RunDesc.reinterpret (buf : List Nat) (oob : Nat → Nat) : RunDesc :=
  { block_size := readU32LE buf oob 0
    count := readU32LE buf oob 4
    offset := readU32LE buf oob 8 }

/-- `RunDesc::from_buf`: reinterpret at the start of the buffer, then
validate against the buffer's length. -/
def RunDesc.from_buf (buf : List Nat) (oob : Nat → Nat) : Except Error RunDesc :=
  (RunDesc.reinterpret buf oob).validate buf.length

/-- `RunDesc::from_map(map, offset)`: the source body is
`Self::from_buf(map.as_ref())` — the `offset` parameter is accepted but
never used. -/
def RunDesc.from_map (buf : List Nat) (offset : Nat) (oob : Nat → Nat) :
    Except Error RunDesc :=
  RunDesc.from_buf buf oob

/-- `Block`: an opaque payload plus a 32-bit fingerprint placeholder. -/
structure Block where
  hash : Nat
  data : List Nat
deriving Repr, DecidableEq

/-- `Block::new`: copies the payload, fingerprint left at zero. -/
def Block.new (data : List Nat) : Block :=
  { hash := 0, data := data }

/-- `Block::size`: `size_of::<u32>() + self.data.len()` — the 4-byte
fingerprint plus the payload. -/
def Block.size (b : Block) : Nat :=
  4 + b.data.length

/-- `Shelf`: an ordered collection of blocks of one size class. -/
structure Shelf where
  block_size : Nat
  blocks : List Block
deriving Repr, DecidableEq

/-- `Shelf::new`. -/
def Shelf.new (block_size : Nat) : Shelf :=
  { block_size := block_size, blocks := [] }

/-- `Shelf::add_block` pushes at the end.  The source's
`assert_eq!(self.block_size, block.data.len())` is an internal-contract
assertion that holds on every call `Collector::add` makes (the shelf is
keyed by the block's length); the model keeps the push. -/
def Shelf.add_block (s : Shelf) (b : Block) : Shelf :=
  { s with blocks := s.blocks ++ [b] }

/-- `Shelf::create_run_desc`: each `usize` field is cast `as u32`. -/
def Shelf.create_run_desc (s : Shelf) (offset : Nat) : RunDesc :=
  { block_size := s.block_size % 2 ^ 32
    count := s.blocks.length % 2 ^ 32
    offset := offset % 2 ^ 32 }

/-- `Shelf::bulk_size`: `0` for an empty shelf, otherwise
`blocks.len() * blocks[0].size()`. -/
def Shelf.bulk_size (s : Shelf) : Nat :=
  match s.blocks with
  | [] => 0
  | b :: _ => s.blocks.length * b.size

/-- `Collector`: `shelves` models the `BTreeMap<usize, Shelf>` as an
association list kept in strictly ascending key order (the order
`BTreeMap::iter` yields). -/
structure Collector where
  max_size : Nat
  shelves : List (Nat × Shelf)
deriving Repr, DecidableEq

/-- `Collector::DEFAULT_MAX_SIZE`. -/
def DEFAULT_MAX_SIZE : Nat := 40

/-- `Collector::new`. -/
def Collector.new : Collector :=
  { max_size := DEFAULT_MAX_SIZE, shelves := [] }

/-- `self.shelves.entry(k).or_insert(Shelf::new(k))` followed by
`shelf.add_block(b)`, on the sorted association list. -/
def updateShelves : List (Nat × Shelf) → Nat → Block → List (Nat × Shelf)
  | [], k, b => [(k, (Shelf.new k).add_block b)]
  | (k', s) :: rest, k, b =>
    if k < k' then (k, (Shelf.new k).add_block b) :: (k', s) :: rest
    else if k = k' then (k, s.add_block b) :: rest
    else (k', s) :: updateShelves rest k b

/-- `Collector::add`, mirroring `&mut self`: the pair is (returned
`Result`, collector state after the call).  The `TooLarge` early return
happens before any shelf is touched. -/
def Collector.add (c : Collector) (data : List Nat) : Except Error Unit × Collector :=
  let block_len := data.length
  if block_len > c.max_size then
    (Except.error (Error.TooLarge block_len), c)
  else
    (Except.ok (),
     { c with shelves := updateShelves c.shelves block_len (Block.new data) })

/-- The descriptor sequence `Collector::press` writes: one
`create_run_desc` per shelf in map order, the running `bulk_offset`
advanced by `bulk_size` after each shelf. -/
def pressDescs : List (Nat × Shelf) → Nat → List RunDesc
  | [], _ => []
  | (_, s) :: rest, bulk_offset =>
    s.create_run_desc bulk_offset :: pressDescs rest (bulk_offset + s.bulk_size)

/-- `Collector::press`, as the byte sequence written to the sink: the
header (`run_count = shelves.len()`), then each descriptor starting from
`bulk_offset = shelves.len() * size_of::<RunDesc>()` (12 bytes per
descriptor).  The source's second loop over the shelves has an empty
body, so nothing follows the descriptors. -/
def Collector.press (c : Collector) : List Nat :=
  (Header.new c.shelves.length).write_out ++
    ((pressDescs c.shelves (c.shelves.length * 12)).map RunDesc.write_out).flatten

/-- Fold a whole sequence of `add` calls over a collector, keeping the
state each call leaves behind (errors leave it unchanged). -/
def Collector.addAll (c : Collector) (ds : List (List Nat)) : Collector :=
  ds.foldl (fun acc d => (acc.add d).2) c

/-- Association-list lookup, the map side of `entry`. -/
def lookupShelf : List (Nat × Shelf) → Nat → Option Shelf
  | [], _ => none
  | (k', s) :: rest, k => if k = k' then some s else lookupShelf rest k

/-- Strictly ascending keys: the `BTreeMap` ordering invariant the
association list carries. -/
def sortedKeys : List (Nat × Shelf) → Bool
  | [] => true
  | [_] => true
  | (k1, _) :: (k2, s2) :: rest => decide (k1 < k2) && sortedKeys ((k2, s2) :: rest)

/-- Sum of all shelves' `bulk_size`: the total data-region extent the
descriptors account for. -/
def totalBulk (shelves : List (Nat × Shelf)) : Nat :=
  (shelves.map (fun p => p.2.bulk_size)).sum

/-- Prefix-sum offsets: `runOffsets base [b1, b2, ...] =
[base, base + b1, base + b1 + b2, ...]` — each run starts where the
previous one ended. -/
def runOffsets (base : Nat) : List Nat → List Nat
  | [] => []
  | b :: bs => base :: runOffsets (base + b) bs

/-- Did a fallible call succeed? -/
def isOk {α : Type} (e : Except Error α) : Bool :=
  match e with
  | Except.ok _ => true
  | Except.error _ => false

/-- One possible content of the memory beyond a too-short buffer: the
bytes of a valid empty-file header.  Used to exhibit what the unchecked
reader can return when it reads past the end of its input. -/
def validOob : Nat → Nat :=
  fun i => (Header.new 0).write_out.getD i 0

/-- The little-endian recomposition of the four bytes `u32ToLE` produces
is the original value reduced mod `2^32`. -/
theorem readU32LE_fields (a b c : Nat) (oob : Nat → Nat) :
    readU32LE (u32ToLE a ++ u32ToLE b ++ u32ToLE c) oob 0 = a % 2 ^ 32 ∧
    readU32LE (u32ToLE a ++ u32ToLE b ++ u32ToLE c) oob 4 = b % 2 ^ 32 ∧
    readU32LE (u32ToLE a ++ u32ToLE b ++ u32ToLE c) oob 8 = c % 2 ^ 32 := by
  have h32 : (2 : Nat) ^ 32 = 4294967296 := by norm_num
  refine ⟨?_, ?_, ?_⟩
  · show a % 256 + 256 * (a / 256 % 256) + 65536 * (a / 65536 % 256) +
      16777216 * (a / 16777216 % 256) = a % 2 ^ 32
    rw [h32]; omega
  · show b % 256 + 256 * (b / 256 % 256) + 65536 * (b / 65536 % 256) +
      16777216 * (b / 16777216 % 256) = b % 2 ^ 32
    rw [h32]; omega
  · show c % 256 + 256 * (c / 256 % 256) + 65536 * (c / 65536 % 256) +
      16777216 * (c / 16777216 % 256) = c % 2 ^ 32
    rw [h32]; omega

/-- Reinterpreting the 12 bytes `Header.write_out` emits recovers each
field mod `2^32`, regardless of what lies beyond the buffer. -/
theorem Header.reinterpret_write_out (h : Header) (oob : Nat → Nat) :
    Header.reinterpret h.write_out oob
      = { magic := h.magic % 2 ^ 32, version := h.version % 2 ^ 32,
          blocklist_size := h.blocklist_size % 2 ^ 32 } := by
  have hb := readU32LE_fields h.magic h.version h.blocklist_size oob
  rw [Header.reinterpret]
  rw [show h.write_out = u32ToLE h.magic ++ u32ToLE h.version ++ u32ToLE h.blocklist_size
      from rfl]
  rw [hb.1, hb.2.1, hb.2.2]

/-- C8: for every `run_count`, decoding the encoding of
`Header::new(run_count)` succeeds (hence passes `validate`) and returns a
header whose `magic`, `version` and `blocklist_size` fields are identical
to the original's — whatever bytes follow the 12 encoded ones. -/
theorem header_encode_decode_roundtrip (run_count : Nat) (oob : Nat → Nat) :
    Header.from_buf (Header.new run_count).write_out oob = Except.ok (Header.new run_count) := by
  rw [Header.from_buf, Header.reinterpret_write_out]
  have hm : FILE_MAGIC % 2 ^ 32 = FILE_MAGIC := by decide
  have h1 : 1 % 2 ^ 32 = 1 := by decide
  have hrc : run_count % 2 ^ 32 % 2 ^ 32 = run_count % 2 ^ 32 :=
    Nat.mod_mod_of_dvd run_count dvd_rfl
  rw [show (Header.new run_count).magic = FILE_MAGIC from rfl,
      show (Header.new run_count).version = 1 from rfl,
      show (Header.new run_count).blocklist_size = run_count % 2 ^ 32 from rfl,
      hm, h1, hrc]
  simp [Header.validate, Header.new, FILE_MAGIC]

/-- C6: validation of a decoded header fails with `BadMagic` exactly when
the buffer's magic field differs from `0x55AA33BB` (never with
`InvalidVersion`), fails with `InvalidVersion` when the magic is right
but the version is not `1`, and succeeds with the in-place view of the
buffer when both are right. -/
theorem header_magic_version_rejection (buf : List Nat) (oob : Nat → Nat) :
    ((Header.reinterpret buf oob).magic ≠ FILE_MAGIC →
      Header.from_buf buf oob = Except.error Error.BadMagic) ∧
    ((Header.reinterpret buf oob).magic = FILE_MAGIC →
      (Header.reinterpret buf oob).version ≠ 1 →
      Header.from_buf buf oob = Except.error Error.InvalidVersion) ∧
    ((Header.reinterpret buf oob).magic = FILE_MAGIC →
      (Header.reinterpret buf oob).version = 1 →
      Header.from_buf buf oob = Except.ok (Header.reinterpret buf oob)) := by
  refine ⟨?_, ?_, ?_⟩
  · intro hm
    simp [Header.from_buf, Header.validate, hm]
  · intro hm hv
    simp [Header.from_buf, Header.validate, hm, hv]
  · intro hm hv
    simp [Header.from_buf, Header.validate, hm, hv]

/-- Witness for C6 at a concrete buffer: 12 zero bytes have magic `0`,
and decoding fails with `BadMagic`. -/
theorem header_magic_version_rejection_witness :
    Header.from_buf (List.replicate 12 0) (fun _ => 0) = Except.error Error.BadMagic :=
  (header_magic_version_rejection (List.replicate 12 0) (fun _ => 0)).1 (by decide)

/-- C4 evaluated at the failing input: `Header::from_buf` performs no
length check at all, so on the empty buffer the raw-pointer
reinterpretation reads 12 bytes of out-of-bounds memory; when that memory
happens to hold a valid header image the call returns `Ok` instead of the
specified short-buffer `Internal` error. -/
theorem header_from_buf_short_buffer_unchecked :
    Header.from_buf [] validOob
      = Except.ok { magic := FILE_MAGIC, version := 1, blocklist_size := 0 } := by
  rfl

/-- C2 evaluated on the code: the boundary case from the spec does hold
(`block_size=10, count=5, offset=0` fails against length 49 and succeeds
against length 50), but the arithmetic is not widened: with
`block_size=65536, count=65536, offset=0` the exact extent is `2^32`,
which exceeds a zero-length buffer, yet the wrapping 32-bit product is
`0` and validation succeeds. -/
theorem rundesc_validate_wrapping :
    isOk (RunDesc.validate { block_size := 10, count := 5, offset := 0 } 49) = false ∧
    isOk (RunDesc.validate { block_size := 10, count := 5, offset := 0 } 50) = true ∧
    isOk (RunDesc.validate { block_size := 65536, count := 65536, offset := 0 } 0) = true := by
  refine ⟨rfl, rfl, rfl⟩

/-- C5 evaluated at the failing input: a 24-byte buffer holding the
descriptor `(1, 1, 0)` followed by the descriptor `(2, 3, 4)`, decoded
with caller-supplied offset 12.  `RunDesc::from_map` ignores the offset
and returns the fields found at the start of the buffer. -/
theorem rundesc_from_map_ignores_offset :
    RunDesc.from_map
        (RunDesc.write_out { block_size := 1, count := 1, offset := 0 } ++
          RunDesc.write_out { block_size := 2, count := 3, offset := 4 })
        12 (fun _ => 0)
      = Except.ok { block_size := 1, count := 1, offset := 0 } := by
  rfl

/-- C1 evaluated at a failing input: pressing a collector holding the
single block `[1, 2, 3]` emits exactly the 12 header bytes and the 12
bytes of one descriptor — the source's second loop over the shelves has
an empty body, so the block's payload bytes never reach the sink. -/
theorem press_writes_no_payload :
    (Collector.new.addAll [[1, 2, 3]]).press
      = (Header.new 1).write_out ++
          RunDesc.write_out { block_size := 3, count := 1, offset := 12 } := by
  rfl

/-- Counterexample to C3 as stated: with a single shelf (one block
`[1, 2, 3]`), the descriptor list `press` writes carries offset `12`
(= `run_count * sizeof(RunDesc)`), not the claimed `0`. -/
theorem press_first_offset_not_zero :
    (pressDescs (Collector.new.addAll [[1, 2, 3]]).shelves
        ((Collector.new.addAll [[1, 2, 3]]).shelves.length * 12)).map RunDesc.offset ≠ [0] ∧
    (pressDescs (Collector.new.addAll [[1, 2, 3]]).shelves
        ((Collector.new.addAll [[1, 2, 3]]).shelves.length * 12)).map RunDesc.offset = [12] := by
  refine ⟨by decide, rfl⟩

/-- As long as the running offset never reaches `2^32` (so the `as u32`
casts are lossless), the offsets `pressDescs` records are exactly the
prefix sums of the shelves' bulk sizes starting at the given base. -/
theorem pressDescs_offsets_chain (shelves : List (Nat × Shelf)) :
    ∀ base : Nat, base + totalBulk shelves < 2 ^ 32 →
      (pressDescs shelves base).map RunDesc.offset
        = runOffsets base (shelves.map fun p => p.2.bulk_size) := by
  induction shelves with
  | nil => intro base _; rfl
  | cons p rest ih =>
    intro base h
    obtain ⟨k, s⟩ := p
    have htb : totalBulk ((k, s) :: rest) = s.bulk_size + totalBulk rest := by
      simp [totalBulk]
    have hbase : base < 2 ^ 32 := by omega
    show (s.create_run_desc base).offset ::
        (pressDescs rest (base + s.bulk_size)).map RunDesc.offset
      = base :: runOffsets (base + s.bulk_size) (rest.map fun p => p.2.bulk_size)
    have h1 : (s.create_run_desc base).offset = base := Nat.mod_eq_of_lt hbase
    rw [h1, ih (base + s.bulk_size) (by omega)]

/-- C3 amended: each descriptor's `offset` is measured from the end of
the header (so it counts the descriptor table): the first run's offset is
`run_count * sizeof(RunDescriptor)` and every later offset is the
previous offset plus the previous run's byte size, so the runs are
contiguous, without gaps or overlap. -/
theorem press_offsets_partition (c : Collector)
    (h : c.shelves.length * 12 + totalBulk c.shelves < 2 ^ 32) :
    (pressDescs c.shelves (c.shelves.length * 12)).map RunDesc.offset
      = runOffsets (c.shelves.length * 12) (c.shelves.map fun p => p.2.bulk_size) :=
  pressDescs_offsets_chain c.shelves (c.shelves.length * 12) h

/-- Witness for C3 (amended) at a concrete two-shelf collector. -/
theorem press_offsets_partition_witness :
    (pressDescs (Collector.new.addAll [[1, 2, 3], [7, 7], [8, 8]]).shelves
        ((Collector.new.addAll [[1, 2, 3], [7, 7], [8, 8]]).shelves.length * 12)).map
        RunDesc.offset
      = runOffsets ((Collector.new.addAll [[1, 2, 3], [7, 7], [8, 8]]).shelves.length * 12)
          ((Collector.new.addAll [[1, 2, 3], [7, 7], [8, 8]]).shelves.map
            fun p => p.2.bulk_size) :=
  press_offsets_partition (Collector.new.addAll [[1, 2, 3], [7, 7], [8, 8]]) (by decide)

/-- C9: for every sequence of `add` calls, two fresh collectors fed that
same sequence press byte-identical output. -/
theorem press_deterministic (adds : List (List Nat)) (c1 c2 : Collector)
    (h1 : c1 = Collector.new.addAll adds) (h2 : c2 = Collector.new.addAll adds) :
    c1.press = c2.press := by
  rw [h1, h2]

/-- Witness for C9 at a concrete add sequence. -/
theorem press_deterministic_witness :
    (Collector.new.addAll [[1, 2, 3], [4, 4], [5, 5, 5]]).press
      = (Collector.new.addAll [[1, 2, 3], [4, 4], [5, 5, 5]]).press :=
  press_deterministic [[1, 2, 3], [4, 4], [5, 5, 5]] _ _ rfl rfl

/-- C10: for every non-empty shelf satisfying the uniform-length
invariant (every block's payload has length `block_size`, which
`Collector::add` maintains), the run byte size `press` advances its
running offset by is `count * (payload length + 4)` — the per-block
storage size counts the 4-byte fingerprint on top of the payload. -/
theorem bulk_size_includes_fingerprint (s : Shelf)
    (hne : s.blocks ≠ [])
    (hinv : ∀ b ∈ s.blocks, b.data.length = s.block_size) :
    s.bulk_size = s.blocks.length * (s.block_size + 4) := by
  obtain ⟨bsz, blocks⟩ := s
  cases blocks with
  | nil => simp at hne
  | cons b rest =>
    have hb : b.data.length = bsz := hinv b (by simp)
    simp [Shelf.bulk_size, Block.size, hb]
    ring

/-- Witness for C10 at a concrete two-block shelf of size class 3. -/
theorem bulk_size_includes_fingerprint_witness :
    ({ block_size := 3, blocks := [Block.new [1, 2, 3], Block.new [4, 5, 6]] } : Shelf).bulk_size
      = 2 * (3 + 4) :=
  bulk_size_includes_fingerprint
    { block_size := 3, blocks := [Block.new [1, 2, 3], Block.new [4, 5, 6]] }
    (by decide) (by decide)

/-- Lookup misses every list whose keys are all above the searched key. -/
theorem lookupShelf_none (l : List (Nat × Shelf)) (k : Nat)
    (h : ∀ p ∈ l, k < p.1) : lookupShelf l k = none := by
  induction l with
  | nil => rfl
  | cons p rest ih =>
    obtain ⟨k', s⟩ := p
    have hk : k < k' := h (k', s) (by simp)
    have hne : k ≠ k' := Nat.ne_of_lt hk
    simp [lookupShelf, hne]
    exact ih fun q hq => h q (List.mem_cons_of_mem _ hq)

/-- The tail of a sorted association list is sorted. -/
theorem sortedKeys_tail (p : Nat × Shelf) (rest : List (Nat × Shelf))
    (h : sortedKeys (p :: rest) = true) : sortedKeys rest = true := by
  cases rest with
  | nil => rfl
  | cons q t =>
    obtain ⟨k1, s1⟩ := p
    obtain ⟨k2, s2⟩ := q
    simp [sortedKeys] at h
    simpa [sortedKeys] using h.2

/-- In a sorted association list, the head key is below every later key. -/
theorem sortedKeys_head_lt (k1 : Nat) (s1 : Shelf) (rest : List (Nat × Shelf))
    (h : sortedKeys ((k1, s1) :: rest) = true) : ∀ p ∈ rest, k1 < p.1 := by
  induction rest generalizing k1 s1 with
  | nil => intro p hp; cases hp
  | cons q t ih =>
    obtain ⟨k2, s2⟩ := q
    intro p hp
    simp only [sortedKeys, Bool.and_eq_true, decide_eq_true_eq] at h
    rcases List.mem_cons.mp hp with rfl | hp'
    · exact h.1
    · exact Nat.lt_trans h.1 (ih k2 s2 h.2 p hp')

/-- Updating a sorted shelf map at key `k` makes the lookup at `k` return
the old shelf (or a fresh one for a new size class) with the block pushed
at the end. -/
theorem lookupShelf_updateShelves_self (l : List (Nat × Shelf)) (k : Nat) (b : Block)
    (hs : sortedKeys l = true) :
    lookupShelf (updateShelves l k b) k
      = some (match lookupShelf l k with
              | some s => s.add_block b
              | none => (Shelf.new k).add_block b) := by
  induction l with
  | nil => simp [updateShelves, lookupShelf]
  | cons p rest ih =>
    obtain ⟨k', s⟩ := p
    by_cases hlt : k < k'
    · have hnone : lookupShelf ((k', s) :: rest) k = none := by
        apply lookupShelf_none
        intro p hp
        rcases List.mem_cons.mp hp with rfl | hp'
        · exact hlt
        · exact Nat.lt_trans hlt (sortedKeys_head_lt k' s rest hs p hp')
      rw [hnone]
      simp [updateShelves, hlt, lookupShelf]
    · by_cases heq : k = k'
      · subst heq
        simp [updateShelves, hlt, lookupShelf]
      · simp [updateShelves, hlt, heq, lookupShelf]
        exact ih (sortedKeys_tail _ _ hs)

/-- Updating the shelf map at key `k` leaves the lookup at every other
key unchanged. -/
theorem lookupShelf_updateShelves_other (l : List (Nat × Shelf)) (k k0 : Nat) (b : Block)
    (h : k0 ≠ k) :
    lookupShelf (updateShelves l k b) k0 = lookupShelf l k0 := by
  induction l with
  | nil => simp [updateShelves, lookupShelf, h]
  | cons p rest ih =>
    obtain ⟨k', s⟩ := p
    by_cases hlt : k < k'
    · simp [updateShelves, hlt, lookupShelf, h]
    · by_cases heq : k = k'
      · subst heq
        simp [updateShelves, hlt, lookupShelf, h]
      · simp [updateShelves, hlt, heq, lookupShelf, ih]

/-- C7: `add` fails with `TooLarge(len)` exactly when the block's length
exceeds `max_size`; on failure the collector is left untouched; on
success the shelf keyed by the block's length gains the block at the end
(created fresh on first use) and every other shelf is unchanged. -/
theorem collector_add_spec (c : Collector) (data : List Nat)
    (hs : sortedKeys c.shelves = true) :
    ((c.add data).1 = Except.error (Error.TooLarge data.length) ↔
      data.length > c.max_size) ∧
    (data.length > c.max_size → (c.add data).2 = c) ∧
    (data.length ≤ c.max_size →
      lookupShelf (c.add data).2.shelves data.length
        = some (match lookupShelf c.shelves data.length with
                | some s => s.add_block (Block.new data)
                | none => (Shelf.new data.length).add_block (Block.new data)) ∧
      ∀ k, k ≠ data.length →
        lookupShelf (c.add data).2.shelves k = lookupShelf c.shelves k) := by
  by_cases hbig : data.length > c.max_size
  · refine ⟨?_, fun _ => ?_, fun hle => absurd hbig (not_lt.mpr hle)⟩
    · simp [Collector.add, hbig]
    · simp [Collector.add, hbig]
  · refine ⟨?_, fun hgt => absurd hgt hbig, fun _ => ⟨?_, fun k hk => ?_⟩⟩
    · simp [Collector.add, hbig]
    · simp only [Collector.add, hbig, if_neg]
      exact lookupShelf_updateShelves_self c.shelves data.length (Block.new data) hs
    · simp only [Collector.add, hbig, if_neg]
      exact lookupShelf_updateShelves_other c.shelves data.length k (Block.new data) hk

/-- Witness for C7: the default collector (max 40) rejects a 41-byte
block with `TooLarge(41)` and is left unchanged. -/
theorem collector_add_spec_witness :
    (Collector.new.add (List.replicate 41 0)).1
        = Except.error (Error.TooLarge (List.replicate 41 0).length) ∧
    (Collector.new.add (List.replicate 41 0)).2 = Collector.new :=
  ⟨((collector_add_spec Collector.new (List.replicate 41 0) rfl).1).mpr (by decide),
   (collector_add_spec Collector.new (List.replicate 41 0) rfl).2.1 (by decide)⟩

end Rody
